import Mathlib

/-!
Verification development for the shader-object specialization and
pipeline-caching subsystem of the slang-rhi repository
(`src/wgpu/wgpu-device.cpp`, which also carries the shared
`rhi-shared.h` declarations).

The C++ code is shallowly embedded: each definition below mirrors one
function or data structure of the source.  Machine integers that never
overflow in the modelled paths (`ShaderComponentID`, sizes, counts) are
modelled as `Nat`; signed indices whose sign is tested by the source
(`GfxIndex offset.bindingRangeIndex`) are modelled as `Int`; fallible
operations return their `Result` code explicitly, and operations whose
C++ counterpart can hit undefined behaviour (out-of-bounds vector
indexing) return `Option`, with `none` marking the undefined access.
-/

namespace SlangRhi

/-- Result codes used by the modelled paths: `SLANG_OK`, `SLANG_FAIL`,
`SLANG_E_INVALID_ARG`, `SLANG_E_NOT_IMPLEMENTED`. -/
inductive RhiResult where
  | ok
  | fail
  | eInvalidArg
  | eNotImplemented
deriving DecidableEq, Repr

/-- `ShaderComponentID` is `uint32_t` in the source; ids are allocated
sequentially by the shader cache and never approach `2^32` in the
modelled paths, so they are modelled as `Nat`. -/
abbrev ShaderComponentID := Nat

/-- `kInvalidComponentID = 0xFFFFFFFF`. -/
def kInvalidComponentID : ShaderComponentID := 0xFFFFFFFF

/-- Mirrors `struct ComponentKey { std::string typeName;
short_vector<ShaderComponentID> specializationArgs; size_t hash; }`.
The `hash` member is a cached value that takes no part in
`operator==`, exactly as in the source. -/
structure ComponentKey where
  typeName : String
  specializationArgs : List ShaderComponentID
  hash : Nat
deriving DecidableEq, Repr

/-- Mirrors `ComponentKey::operator==`: compare type names, then the
argument-count, then each argument id positionally. -/
def ComponentKey.keyEq (a b : ComponentKey) : Bool :=
  if a.typeName ≠ b.typeName then false
  else if a.specializationArgs.length ≠ b.specializationArgs.length then false
  else (List.zip a.specializationArgs b.specializationArgs).all (fun p => p.1 = p.2)

/-- Mirrors `struct PipelineKey { Pipeline* pipeline;
short_vector<ShaderComponentID> specializationArgs; size_t hash; }`.
The pipeline pointer is modelled by its identity as a natural number. -/
structure PipelineKey where
  pipeline : Nat
  specializationArgs : List ShaderComponentID
  hash : Nat
deriving DecidableEq, Repr

/-- Mirrors `PipelineKey::operator==`. -/
def PipelineKey.keyEq (a b : PipelineKey) : Bool :=
  if a.pipeline ≠ b.pipeline then false
  else if a.specializationArgs.length ≠ b.specializationArgs.length then false
  else (List.zip a.specializationArgs b.specializationArgs).all (fun p => p.1 = p.2)

/-- Pipelines are reference-counted objects; for the cache claims only
their identity matters, so a cached pipeline is modelled by a numeric
identity. -/
abbrev PipelineRef := Nat

/-- Mirrors `class ShaderCache`: the component-identity map and the
specialized-pipeline map.  The `unordered_map`s are modelled as
association lists looked up through the source `operator==`
predicates. -/
structure ShaderCache where
  componentIds : List (ComponentKey × ShaderComponentID)
  specializedPipelines : List (PipelineKey × PipelineRef)
deriving Repr

/-- Mirrors `ShaderCache::getSpecializedPipeline`: find by key
equality, return the stored pipeline, or null (`none`) on a miss. -/
def ShaderCache.getSpecializedPipeline (c : ShaderCache) (programKey : PipelineKey) :
    Option PipelineRef :=
  (c.specializedPipelines.find? (fun e => PipelineKey.keyEq e.1 programKey)).map (fun e => e.2)

/-- Mirrors `ShaderCache::addSpecializedPipeline` (map insert). -/
def ShaderCache.addSpecializedPipeline (c : ShaderCache) (key : PipelineKey)
    (specializedPipeline : PipelineRef) : ShaderCache :=
  { c with specializedPipelines := (key, specializedPipeline) :: c.specializedPipelines }

/-- Mirrors `ShaderCache::free`: both maps are replaced by
freshly-constructed empty maps. -/
def ShaderCache.free (_c : ShaderCache) : ShaderCache :=
  { specializedPipelines := [], componentIds := [] }

/-- Positional elementwise comparison of two equal-length lists, as the
source `operator==` loops do, succeeds exactly on equal lists. -/
theorem zip_all_eq_iff (as bs : List ShaderComponentID) (hlen : as.length = bs.length) :
    ((List.zip as bs).all (fun p => p.1 = p.2) = true) ↔ as = bs := by
  induction as generalizing bs with
  | nil =>
    cases bs with
    | nil => simp
    | cons b bs => simp at hlen
  | cons a as ih =>
    cases bs with
    | nil => simp at hlen
    | cons b bs =>
      simp only [List.length_cons, Nat.succ.injEq] at hlen
      simp [List.zip_cons_cons, List.all_cons, ih bs hlen, and_comm]

/-- C6: two component keys compare equal exactly when the type names
agree and the ordered argument-id sequences agree. -/
theorem componentKey_keyEq_iff (a b : ComponentKey) :
    ComponentKey.keyEq a b = true ↔
      a.typeName = b.typeName ∧ a.specializationArgs = b.specializationArgs := by
  unfold ComponentKey.keyEq
  by_cases hname : a.typeName = b.typeName
  · by_cases hlen : a.specializationArgs.length = b.specializationArgs.length
    · simp only [hname, hlen, ne_eq, not_true_eq_false, if_false]
      rw [zip_all_eq_iff _ _ hlen]
      simp [hname]
    · constructor
      · intro h
        exfalso
        simp [hname, hlen] at h
      · rintro ⟨-, hargs⟩
        exact absurd (congrArg List.length hargs) hlen
  · constructor
    · intro h
      exfalso
      simp [hname] at h
    · rintro ⟨hn, -⟩
      exact absurd hn hname

/-- C9: after `ShaderCache::free()`, `getSpecializedPipeline` returns
null for every pipeline key, no matter what had been cached, and the
component-identity map is empty as well. -/
theorem shaderCache_free_clears (c : ShaderCache) (key : PipelineKey) :
    ShaderCache.getSpecializedPipeline (ShaderCache.free c) key = none ∧
      (ShaderCache.free c).componentIds = [] := by
  constructor
  · rfl
  · rfl

/-! Reflection type layouts and `ShaderObjectLayout::_unwrapParameterGroups`. -/

/-- The `slang::TypeReflection::Kind` values distinguished by the
modelled code; every kind the code does not name falls under
`OtherKind` (the `default` label of the `switch`). -/
inductive TypeKind where
  | Array
  | Resource
  | ConstantBuffer
  | ParameterBlock
  | Interface
  | OtherKind
deriving DecidableEq, Repr

/-- Resource shapes: the code only tests `SLANG_STRUCTURED_BUFFER`
against everything else. -/
inductive SlangResourceShape where
  | StructuredBufferShape
  | OtherShape
deriving DecidableEq, Repr

/-- Mirrors `enum ShaderObjectContainerType`. -/
inductive ShaderObjectContainerType where
  | None
  | Array
  | StructuredBuffer
deriving DecidableEq, Repr

/-- Model of `slang::TypeLayoutReflection`, restricted to the queries
the modelled code performs: `getKind`, `getType` (only its null-ness is
observed, kept as `hasType`), `getResourceShape`,
`getElementTypeLayout` (null modelled as `none`), `getStride` and
`getSize`. -/
inductive TypeLayoutReflection where
  | mk (kind : TypeKind) (hasType : Bool) (resourceShape : SlangResourceShape)
      (elementTypeLayout : Option TypeLayoutReflection) (stride : Nat) (size : Nat)
deriving Repr

def TypeLayoutReflection.getKind : TypeLayoutReflection → TypeKind
  | .mk k _ _ _ _ _ => k

def TypeLayoutReflection.hasType : TypeLayoutReflection → Bool
  | .mk _ h _ _ _ _ => h

def TypeLayoutReflection.getResourceShape : TypeLayoutReflection → SlangResourceShape
  | .mk _ _ s _ _ _ => s

def TypeLayoutReflection.getElementTypeLayout : TypeLayoutReflection → Option TypeLayoutReflection
  | .mk _ _ _ e _ _ => e

def TypeLayoutReflection.getStride : TypeLayoutReflection → Nat
  | .mk _ _ _ _ st _ => st

def TypeLayoutReflection.getSize : TypeLayoutReflection → Nat
  | .mk _ _ _ _ _ sz => sz

/-- The redirect performed at the top of every `for (;;)` iteration of
`_unwrapParameterGroups`: `if (!typeLayout->getType()) { if (auto
elementTypeLayout = typeLayout->getElementTypeLayout()) typeLayout =
elementTypeLayout; }`. -/
def redirect (t : TypeLayoutReflection) : TypeLayoutReflection :=
  if t.hasType then t
  else
    match t.getElementTypeLayout with
    | some e => e
    | none => t

/-- Outcome of one iteration of the loop body of
`_unwrapParameterGroups`.  `done` is a `return` (carrying the returned
layout pointer, null as `none`, and the container classification left
in `outContainerType`); `again` re-enters the loop with the given
layout as the new `typeLayout`; `nullDeref` marks the undefined
behaviour of re-entering the loop after
`typeLayout = typeLayout->getElementTypeLayout()` assigned null in the
constant-buffer/parameter-block case. -/
inductive UnwrapStep where
  | done (result : Option TypeLayoutReflection) (container : ShaderObjectContainerType)
  | again (next : TypeLayoutReflection)
  | nullDeref
deriving Repr

/-- One iteration of the `for (;;)` body of
`ShaderObjectLayout::_unwrapParameterGroups`: redirect, then `switch
(typeLayout->getKind())`.  In the `Resource` case the source executes
`break;` when the shape is not `SLANG_STRUCTURED_BUFFER`, which leaves
the `switch` and re-enters the loop with `typeLayout` unchanged. -/
def unwrapStep (t : TypeLayoutReflection) : UnwrapStep :=
  match (redirect t).getKind with
  | .Array => .done (redirect t).getElementTypeLayout .Array
  | .Resource =>
      if (redirect t).getResourceShape ≠ .StructuredBufferShape then .again (redirect t)
      else .done (redirect t).getElementTypeLayout .StructuredBuffer
  | .ConstantBuffer | .ParameterBlock =>
      match (redirect t).getElementTypeLayout with
      | some e => .again e
      | none => .nullDeref
  | _ => .done (some (redirect t)) .None

/-- Fueled execution of the `for (;;)` loop of
`_unwrapParameterGroups`: `none` means the loop has not returned within
the given number of iterations (or hit undefined behaviour). -/
def unwrapRun : Nat → TypeLayoutReflection →
    Option (Option TypeLayoutReflection × ShaderObjectContainerType)
  | 0, _ => none
  | n + 1, t =>
    match unwrapStep t with
    | .done r c => some (r, c)
    | .again t2 => unwrapRun n t2
    | .nullDeref => none

/-- The loop of `_unwrapParameterGroups` returns on input `t`. -/
def unwrapTerminates (t : TypeLayoutReflection) : Prop :=
  ∃ n r, unwrapRun n t = some r

/-- Possible overall outcomes of the unwrap loop as described by the
spec: either it returns a classification, or it spins forever on a
non-structured-buffer resource layout, or it dereferences a null
element layout under a parameter-group wrapper. -/
inductive UnwrapOutcome where
  | done (result : Option TypeLayoutReflection) (container : ShaderObjectContainerType)
  | spins (stuck : TypeLayoutReflection)
  | nullDeref
deriving Repr

/-- The redirect leaves `t` unchanged (so the loop state is
stationary). -/
def redirectFixed (t : TypeLayoutReflection) : Bool :=
  t.hasType || t.getElementTypeLayout.isNone

theorem redirect_eq_of_fixed (t : TypeLayoutReflection) (h : redirectFixed t = true) :
    redirect t = t := by
  cases t with
  | mk k hT sh elem st sz =>
    simp only [redirectFixed, TypeLayoutReflection.hasType,
      TypeLayoutReflection.getElementTypeLayout, Bool.or_eq_true] at h
    unfold redirect
    rcases h with h | h
    · simp [TypeLayoutReflection.hasType, h]
    · cases elem with
      | none =>
        simp [TypeLayoutReflection.hasType, TypeLayoutReflection.getElementTypeLayout]
      | some e => simp [Option.isNone] at h

theorem sizeOf_elem_lt (t e : TypeLayoutReflection)
    (h : t.getElementTypeLayout = some e) : sizeOf e < sizeOf t := by
  cases t with
  | mk k hT sh elem st sz =>
    simp only [TypeLayoutReflection.getElementTypeLayout] at h
    subst h
    simp only [TypeLayoutReflection.mk.sizeOf_spec, Option.some.sizeOf_spec]
    omega

theorem sizeOf_redirect_le (t : TypeLayoutReflection) : sizeOf (redirect t) ≤ sizeOf t := by
  unfold redirect
  by_cases h : t.hasType
  · simp [h]
  · simp only [h, if_false]
    cases he : t.getElementTypeLayout with
    | none => simp
    | some e => exact le_of_lt (sizeOf_elem_lt t e he)

theorem sizeOf_redirect_lt (t : TypeLayoutReflection)
    (h : redirectFixed (redirect t) = false) : sizeOf (redirect t) < sizeOf t := by
  by_cases hT : t.hasType
  · exfalso
    have : redirect t = t := by unfold redirect; simp [hT]
    rw [this] at h
    simp [redirectFixed, hT] at h
  · cases he : t.getElementTypeLayout with
    | none =>
      exfalso
      have : redirect t = t := by unfold redirect; simp [hT, he]
      rw [this] at h
      simp [redirectFixed, hT, he] at h
    | some e =>
      have : redirect t = e := by unfold redirect; simp [hT, he]
      rw [this]
      exact sizeOf_elem_lt t e he

/-- The container-resolution algorithm exactly as §4.2 of the spec
describes it (`resolveContainer`), extended with the two
non-returning outcomes the loop embedding can reach: unwrap
constant-buffer/parameter-block wrappers, classify an array layout as
`Array` descending to its element layout, a structured-buffer resource
layout as `StructuredBuffer` descending to its element layout, and
anything else as `None`; a resource layout whose shape is not a
structured buffer leaves the loop state unchanged, which is reported as
`spins` once the state is stationary. -/
def resolveContainer (t : TypeLayoutReflection) : UnwrapOutcome :=
  let t1 := redirect t
  match t1.getKind with
  | .Array => .done t1.getElementTypeLayout .Array
  | .Resource =>
      if t1.getResourceShape ≠ .StructuredBufferShape then
        if h2 : redirectFixed t1 = true then .spins t1 else resolveContainer t1
      else .done t1.getElementTypeLayout .StructuredBuffer
  | .ConstantBuffer | .ParameterBlock =>
      match he : t1.getElementTypeLayout with
      | some e => resolveContainer e
      | none => .nullDeref
  | _ => .done (some t1) .None
termination_by sizeOf t
decreasing_by
  · exact sizeOf_redirect_lt t (by simpa using h2)
  · exact lt_of_lt_of_le (sizeOf_elem_lt _ _ he) (sizeOf_redirect_le t)
  · exact lt_of_lt_of_le (sizeOf_elem_lt _ _ he) (sizeOf_redirect_le t)

theorem unwrapRun_again (t t2 : TypeLayoutReflection) (h : unwrapStep t = .again t2)
    (n : Nat) : unwrapRun (n + 1) t = unwrapRun n t2 := by
  simp [unwrapRun, h]

/-- A loop state that steps to itself never returns, with any fuel. -/
theorem stationary_none (t : TypeLayoutReflection) (h : unwrapStep t = .again t) :
    ∀ n, unwrapRun n t = none := by
  intro n
  induction n with
  | zero => rfl
  | succ n ih => rw [unwrapRun_again t t h n]; exact ih

theorem nullDeref_none (t : TypeLayoutReflection) (h : unwrapStep t = .nullDeref) :
    ∀ n, unwrapRun n t = none := by
  intro n
  cases n with
  | zero => rfl
  | succ n => simp [unwrapRun, h]

/-- Propagate non-termination backwards across one loop step. -/
theorem run_none_of_step (t t2 : TypeLayoutReflection) (h : unwrapStep t = .again t2)
    (h2 : ∀ n, unwrapRun n t2 = none) : ∀ n, unwrapRun n t = none := by
  intro n
  cases n with
  | zero => rfl
  | succ n => rw [unwrapRun_again t t2 h n]; exact h2 n

theorem unwrapStep_array (t : TypeLayoutReflection) (hk : (redirect t).getKind = .Array) :
    unwrapStep t = .done (redirect t).getElementTypeLayout .Array := by
  unfold unwrapStep
  rw [hk]

theorem unwrapStep_resource_sb (t : TypeLayoutReflection)
    (hk : (redirect t).getKind = .Resource)
    (hsh : (redirect t).getResourceShape = .StructuredBufferShape) :
    unwrapStep t = .done (redirect t).getElementTypeLayout .StructuredBuffer := by
  unfold unwrapStep
  rw [hk]
  simp [hsh]

theorem unwrapStep_resource_other (t : TypeLayoutReflection)
    (hk : (redirect t).getKind = .Resource)
    (hsh : (redirect t).getResourceShape ≠ .StructuredBufferShape) :
    unwrapStep t = .again (redirect t) := by
  unfold unwrapStep
  rw [hk]
  simp [hsh]

theorem unwrapStep_group_some (t e : TypeLayoutReflection)
    (hk : (redirect t).getKind = .ConstantBuffer ∨ (redirect t).getKind = .ParameterBlock)
    (he : (redirect t).getElementTypeLayout = some e) :
    unwrapStep t = .again e := by
  unfold unwrapStep
  rcases hk with hk | hk <;> rw [hk, he]

theorem unwrapStep_group_none (t : TypeLayoutReflection)
    (hk : (redirect t).getKind = .ConstantBuffer ∨ (redirect t).getKind = .ParameterBlock)
    (he : (redirect t).getElementTypeLayout = none) :
    unwrapStep t = .nullDeref := by
  unfold unwrapStep
  rcases hk with hk | hk <;> rw [hk, he]

theorem unwrapStep_default (t : TypeLayoutReflection)
    (hk : (redirect t).getKind = .Interface ∨ (redirect t).getKind = .OtherKind) :
    unwrapStep t = .done (some (redirect t)) .None := by
  unfold unwrapStep
  rcases hk with hk | hk <;> rw [hk]

theorem resolveContainer_array (t : TypeLayoutReflection)
    (hk : (redirect t).getKind = .Array) :
    resolveContainer t = .done (redirect t).getElementTypeLayout .Array := by
  rw [resolveContainer, hk]

theorem resolveContainer_resource_sb (t : TypeLayoutReflection)
    (hk : (redirect t).getKind = .Resource)
    (hsh : (redirect t).getResourceShape = .StructuredBufferShape) :
    resolveContainer t = .done (redirect t).getElementTypeLayout .StructuredBuffer := by
  rw [resolveContainer, hk]
  simp [hsh]

theorem resolveContainer_resource_spin (t : TypeLayoutReflection)
    (hk : (redirect t).getKind = .Resource)
    (hsh : (redirect t).getResourceShape ≠ .StructuredBufferShape)
    (hfix : redirectFixed (redirect t) = true) :
    resolveContainer t = .spins (redirect t) := by
  rw [resolveContainer, hk]
  simp [hsh, hfix]

theorem resolveContainer_resource_rec (t : TypeLayoutReflection)
    (hk : (redirect t).getKind = .Resource)
    (hsh : (redirect t).getResourceShape ≠ .StructuredBufferShape)
    (hfix : redirectFixed (redirect t) = false) :
    resolveContainer t = resolveContainer (redirect t) := by
  rw [resolveContainer, hk]
  simp [hsh, hfix]

theorem resolveContainer_group_some (t e : TypeLayoutReflection)
    (hk : (redirect t).getKind = .ConstantBuffer ∨ (redirect t).getKind = .ParameterBlock)
    (he : (redirect t).getElementTypeLayout = some e) :
    resolveContainer t = resolveContainer e := by
  rcases hk with hk | hk
  · rw [resolveContainer, hk]
    split
    case h_3 =>
      split
      case _ x hx =>
        rw [he] at hx
        injection hx with hx2
        rw [hx2]
      case _ hx =>
        rw [he] at hx
        cases hx
    all_goals first
      | (rename_i heq; cases heq)
      | (exact absurd rfl (by assumption))
  · rw [resolveContainer, hk]
    split
    case h_4 =>
      split
      case _ x hx =>
        rw [he] at hx
        injection hx with hx2
        rw [hx2]
      case _ hx =>
        rw [he] at hx
        cases hx
    all_goals first
      | (rename_i heq; cases heq)
      | (exact absurd rfl (by assumption))

theorem resolveContainer_group_none (t : TypeLayoutReflection)
    (hk : (redirect t).getKind = .ConstantBuffer ∨ (redirect t).getKind = .ParameterBlock)
    (he : (redirect t).getElementTypeLayout = none) :
    resolveContainer t = .nullDeref := by
  rcases hk with hk | hk
  · rw [resolveContainer, hk]
    split
    case h_3 =>
      split
      case _ x hx =>
        rw [he] at hx
        cases hx
      case _ hx => rfl
    all_goals first
      | (rename_i heq; cases heq)
      | (exact absurd rfl (by assumption))
  · rw [resolveContainer, hk]
    split
    case h_4 =>
      split
      case _ x hx =>
        rw [he] at hx
        cases hx
      case _ hx => rfl
    all_goals first
      | (rename_i heq; cases heq)
      | (exact absurd rfl (by assumption))

theorem resolveContainer_default (t : TypeLayoutReflection)
    (hk : (redirect t).getKind = .Interface ∨ (redirect t).getKind = .OtherKind) :
    resolveContainer t = .done (some (redirect t)) .None := by
  rcases hk with hk | hk <;> rw [resolveContainer, hk]

theorem resolveContainer_sim_aux : ∀ (N : Nat) (t : TypeLayoutReflection), sizeOf t < N →
    (∀ r c, resolveContainer t = .done r c → ∃ n, unwrapRun n t = some (r, c)) ∧
    (∀ u, resolveContainer t = .spins u → ∀ n, unwrapRun n t = none) ∧
    (resolveContainer t = .nullDeref → ∀ n, unwrapRun n t = none) := by
  intro N
  induction N with
  | zero => intro t h; omega
  | succ N ih =>
    intro t ht
    cases hk : (redirect t).getKind with
    | Array =>
      have hrc := resolveContainer_array t hk
      have hst := unwrapStep_array t hk
      refine ⟨?_, ?_, ?_⟩
      · intro r c h
        rw [hrc] at h
        cases h
        exact ⟨1, by simp [unwrapRun, hst]⟩
      · intro u h; rw [hrc] at h; cases h
      · intro h; rw [hrc] at h; cases h
    | Resource =>
      by_cases hsh : (redirect t).getResourceShape = .StructuredBufferShape
      · have hrc := resolveContainer_resource_sb t hk hsh
        have hst := unwrapStep_resource_sb t hk hsh
        refine ⟨?_, ?_, ?_⟩
        · intro r c h
          rw [hrc] at h
          cases h
          exact ⟨1, by simp [unwrapRun, hst]⟩
        · intro u h; rw [hrc] at h; cases h
        · intro h; rw [hrc] at h; cases h
      · have hst := unwrapStep_resource_other t hk hsh
        by_cases hfix : redirectFixed (redirect t) = true
        · have hrc := resolveContainer_resource_spin t hk hsh hfix
          have hstat : unwrapStep (redirect t) = .again (redirect t) := by
            have h1 : redirect (redirect t) = redirect t := redirect_eq_of_fixed _ hfix
            have := unwrapStep_resource_other (redirect t) (by rw [h1]; exact hk)
              (by rw [h1]; exact hsh)
            rw [h1] at this
            exact this
          have hnone := run_none_of_step t (redirect t) hst (stationary_none _ hstat)
          refine ⟨?_, ?_, ?_⟩
          · intro r c h
            rw [hrc] at h
            cases h
          · intro u h
            exact hnone
          · intro h; rw [hrc] at h; cases h
        · have hfix2 : redirectFixed (redirect t) = false := by
            revert hfix; cases redirectFixed (redirect t) <;> simp
          have hrc := resolveContainer_resource_rec t hk hsh hfix2
          have hlt : sizeOf (redirect t) < N := by
            have := sizeOf_redirect_lt t hfix2
            omega
          obtain ⟨ih1, ih2, ih3⟩ := ih (redirect t) hlt
          refine ⟨?_, ?_, ?_⟩
          · intro r c h
            rw [hrc] at h
            obtain ⟨n, hn⟩ := ih1 r c h
            exact ⟨n + 1, by rw [unwrapRun_again t _ hst]; exact hn⟩
          · intro u h
            rw [hrc] at h
            exact run_none_of_step t _ hst (ih2 u h)
          · intro h
            rw [hrc] at h
            exact run_none_of_step t _ hst (ih3 h)
    | ConstantBuffer =>
      cases he : (redirect t).getElementTypeLayout with
      | some e =>
        have hrc := resolveContainer_group_some t e (Or.inl hk) he
        have hst := unwrapStep_group_some t e (Or.inl hk) he
        have hlt : sizeOf e < N := by
          have h1 := sizeOf_elem_lt _ _ he
          have h2 := sizeOf_redirect_le t
          omega
        obtain ⟨ih1, ih2, ih3⟩ := ih e hlt
        refine ⟨?_, ?_, ?_⟩
        · intro r c h
          rw [hrc] at h
          obtain ⟨n, hn⟩ := ih1 r c h
          exact ⟨n + 1, by rw [unwrapRun_again t _ hst]; exact hn⟩
        · intro u h
          rw [hrc] at h
          exact run_none_of_step t _ hst (ih2 u h)
        · intro h
          rw [hrc] at h
          exact run_none_of_step t _ hst (ih3 h)
      | none =>
        have hrc := resolveContainer_group_none t (Or.inl hk) he
        have hst := unwrapStep_group_none t (Or.inl hk) he
        refine ⟨?_, ?_, ?_⟩
        · intro r c h; rw [hrc] at h; cases h
        · intro u h; rw [hrc] at h; cases h
        · intro h
          exact nullDeref_none t hst
    | ParameterBlock =>
      cases he : (redirect t).getElementTypeLayout with
      | some e =>
        have hrc := resolveContainer_group_some t e (Or.inr hk) he
        have hst := unwrapStep_group_some t e (Or.inr hk) he
        have hlt : sizeOf e < N := by
          have h1 := sizeOf_elem_lt _ _ he
          have h2 := sizeOf_redirect_le t
          omega
        obtain ⟨ih1, ih2, ih3⟩ := ih e hlt
        refine ⟨?_, ?_, ?_⟩
        · intro r c h
          rw [hrc] at h
          obtain ⟨n, hn⟩ := ih1 r c h
          exact ⟨n + 1, by rw [unwrapRun_again t _ hst]; exact hn⟩
        · intro u h
          rw [hrc] at h
          exact run_none_of_step t _ hst (ih2 u h)
        · intro h
          rw [hrc] at h
          exact run_none_of_step t _ hst (ih3 h)
      | none =>
        have hrc := resolveContainer_group_none t (Or.inr hk) he
        have hst := unwrapStep_group_none t (Or.inr hk) he
        refine ⟨?_, ?_, ?_⟩
        · intro r c h; rw [hrc] at h; cases h
        · intro u h; rw [hrc] at h; cases h
        · intro h
          exact nullDeref_none t hst
    | Interface =>
      have hrc := resolveContainer_default t (Or.inl hk)
      have hst := unwrapStep_default t (Or.inl hk)
      refine ⟨?_, ?_, ?_⟩
      · intro r c h
        rw [hrc] at h
        cases h
        exact ⟨1, by simp [unwrapRun, hst]⟩
      · intro u h; rw [hrc] at h; cases h
      · intro h; rw [hrc] at h; cases h
    | OtherKind =>
      have hrc := resolveContainer_default t (Or.inr hk)
      have hst := unwrapStep_default t (Or.inr hk)
      refine ⟨?_, ?_, ?_⟩
      · intro r c h
        rw [hrc] at h
        cases h
        exact ⟨1, by simp [unwrapRun, hst]⟩
      · intro u h; rw [hrc] at h; cases h
      · intro h; rw [hrc] at h; cases h

/-- A `Texture2D`-like resource type layout: kind `Resource`, non-null
type, resource shape other than `SLANG_STRUCTURED_BUFFER`, no element
layout. -/
def texture2DLayout : TypeLayoutReflection :=
  .mk .Resource true .OtherShape none 0 0

/-- C2 (counterexample): on a resource type layout whose shape is not
`SLANG_STRUCTURED_BUFFER` (for example a `Texture2D`), the `break` in
the `Resource` case of the `switch` re-enters the `for (;;)` loop with
`typeLayout` unchanged, so `_unwrapParameterGroups` never returns: the
claim that the loop terminates for every layout is false. -/
theorem unwrapParameterGroups_texture_diverges :
    ¬ unwrapTerminates texture2DLayout := by
  have hstep : unwrapStep texture2DLayout = .again texture2DLayout := rfl
  rintro ⟨n, r, h⟩
  rw [stationary_none _ hstep n] at h
  cases h

/-- C2 (amended): the unwrap loop of
`ShaderObjectLayout::_unwrapParameterGroups` computes exactly the
classification described by `resolveContainer` (unwrap
constant-buffer/parameter-block wrappers, `Array` layouts yield `Array`
and descend to the element layout, structured-buffer resource layouts
yield `StructuredBuffer` and descend to the element layout, any other
kind yields `None` and returns the layout itself); but when the unwrap
chain reaches a resource layout whose shape is not a structured buffer
the loop re-enters with an unchanged state and never returns, and when
a constant-buffer/parameter-block wrapper has a null element layout the
loop dereferences null instead of returning. -/
theorem unwrapParameterGroups_characterization (t : TypeLayoutReflection) :
    (∀ r c, resolveContainer t = .done r c → ∃ n, unwrapRun n t = some (r, c)) ∧
    (∀ u, resolveContainer t = .spins u → ¬ unwrapTerminates t) ∧
    (resolveContainer t = .nullDeref → ¬ unwrapTerminates t) := by
  obtain ⟨h1, h2, h3⟩ := resolveContainer_sim_aux (sizeOf t + 1) t (by omega)
  refine ⟨h1, ?_, ?_⟩
  · intro u h
    rintro ⟨n, r, hr⟩
    rw [h2 u h n] at hr
    cases hr
  · intro h
    rintro ⟨n, r, hr⟩
    rw [h3 h n] at hr
    cases hr

/-- Element type sitting under the constant-buffer wrapper used by the
witness below. -/
def plainStructLayout : TypeLayoutReflection :=
  .mk .OtherKind true .OtherShape none 16 16

/-- A `ConstantBuffer<S>`-like layout wrapping `plainStructLayout`. -/
def constantBufferLayout : TypeLayoutReflection :=
  .mk .ConstantBuffer true .OtherShape (some plainStructLayout) 16 16

/-- Witness for C2 (amended): a concrete `ConstantBuffer` wrapper is
unwrapped by the loop, which returns the wrapped layout with
container classification `None`. -/
theorem unwrapParameterGroups_characterization_witness :
    ∃ n, unwrapRun n constantBufferLayout =
      some (some plainStructLayout, ShaderObjectContainerType.None) := by
  apply (unwrapParameterGroups_characterization constantBufferLayout).1
  rw [resolveContainer_group_some constantBufferLayout plainStructLayout (Or.inl rfl) rfl]
  exact resolveContainer_default plainStructLayout (Or.inr rfl)

/-! The shader object model (`ShaderObjectBase` / `ShaderObjectBaseImpl`). -/

/-- The `slang::BindingType` values the modelled code distinguishes;
every other binding type falls under `OtherBinding` (no `case` label in
the `switch` statements). -/
inductive BindingType where
  | ExistentialValue
  | RawBuffer
  | MutableRawBuffer
  | ParameterBlock
  | ConstantBuffer
  | OtherBinding
deriving DecidableEq, Repr

/-- One entry of a shader object layout's binding-range table, with the
fields the modelled code reads: `bindingType`, `count`,
`subObjectIndex`, `isSpecializable`, and the leaf type layout that the
source obtains through
`getElementTypeLayout()->getBindingRangeLeafTypeLayout(bindingRangeIndex)`. -/
structure BindingRange where
  bindingType : BindingType
  count : Nat
  subObjectIndex : Nat
  isSpecializable : Bool
  leafTypeLayout : TypeLayoutReflection
deriving Repr

/-- One entry of the layout's sub-object-range table; the code only
reads its `bindingRangeIndex`. -/
structure SubObjectRange where
  bindingRangeIndex : Nat
deriving Repr

/-- The queries `ShaderObjectBaseImpl` makes of its layout
(`TShaderObjectLayoutImpl`): container classification, element type
layout, binding ranges and sub-object ranges. -/
structure ShaderObjectLayoutModel where
  containerType : ShaderObjectContainerType
  elementTypeLayout : TypeLayoutReflection
  bindingRanges : List BindingRange
  subObjectRanges : List SubObjectRange
deriving Repr

/-- `ShaderOffset`.  `uniformOffset` and `bindingArrayIndex` are used
only as unsigned offsets/sizes on the modelled paths and are kept as
`Nat`; `bindingRangeIndex` is a signed `GfxIndex` whose sign the source
checks explicitly (`offset.bindingRangeIndex < 0`). -/
structure ShaderOffset where
  uniformOffset : Nat
  bindingRangeIndex : Int
  bindingArrayIndex : Nat
deriving Repr

/-- `ShaderObjectBase::State`. -/
inductive ObjState where
  | Initial
  | Initialized
  | Finalized
deriving DecidableEq, Repr

/-- The mutable state of a `ShaderObjectBaseImpl`: layout, state,
ordinary-data byte buffer (`m_data.m_ordinaryData`), sub-object list
(`m_objects`, null entries as `none`), per-index user-provided
specialization-argument lists (`m_userProvidedSpecializationArgs`, null
entries as `none`), the cached per-element specialization signature of
a structured-buffer container
(`m_structuredBufferSpecializationArgs`, kept as its component ids; the
parallel `slang::SpecializationArg` list is maintained in lockstep by
the source and all merge decisions read only the ids), and the result
of `getSpecializedShaderObjectType` — whose body is not part of the
provided sources — modelled as a stored optional component id (`none`
means the call fails). -/
inductive ShaderObjectM where
  | mk (layout : ShaderObjectLayoutModel) (state : ObjState)
      (data : List Nat)
      (objects : List (Option ShaderObjectM))
      (userProvidedSpecializationArgs : List (Option (List ShaderComponentID)))
      (structuredBufferSpecializationArgs : List ShaderComponentID)
      (specializedTypeId : Option ShaderComponentID)

def ShaderObjectM.layout : ShaderObjectM → ShaderObjectLayoutModel
  | .mk l _ _ _ _ _ _ => l

def ShaderObjectM.state : ShaderObjectM → ObjState
  | .mk _ s _ _ _ _ _ => s

def ShaderObjectM.data : ShaderObjectM → List Nat
  | .mk _ _ d _ _ _ _ => d

def ShaderObjectM.objects : ShaderObjectM → List (Option ShaderObjectM)
  | .mk _ _ _ o _ _ _ => o

def ShaderObjectM.userProvidedSpecializationArgs :
    ShaderObjectM → List (Option (List ShaderComponentID))
  | .mk _ _ _ _ u _ _ => u

def ShaderObjectM.structuredBufferSpecializationArgs :
    ShaderObjectM → List ShaderComponentID
  | .mk _ _ _ _ _ s _ => s

def ShaderObjectM.specializedTypeId : ShaderObjectM → Option ShaderComponentID
  | .mk _ _ _ _ _ _ t => t

/-- `ShaderObjectBase::isFinalized()`. -/
def ShaderObjectM.isFinalized (o : ShaderObjectM) : Bool :=
  decide (o.state = ObjState.Finalized)

/-- `std::vector::resize(n, x)` semantics: truncate to `n` elements or
extend with copies of `x` (`x = 0` for the `uint8_t` data buffer, `x =
none` for the sub-object and user-argument tables, matching
value-initialization of the element types). -/
def vecResize (l : List α) (n : Nat) (x : α) : List α :=
  l.take n ++ List.replicate (n - l.length) x

/-- Modelled from the spec: `IShaderObject::setData` ("copies the bytes
into the payload"; the backend implementation is not part of the
provided sources): overwrite `src.length` bytes of `data` starting at
byte `off`; the buffer keeps its size. -/
def writeBytes : List Nat → Nat → List Nat → List Nat
  | [], _, _ => []
  | d :: rest, 0, [] => d :: rest
  | _ :: rest, 0, s :: srest => s :: writeBytes rest 0 srest
  | d :: rest, o + 1, src => d :: writeBytes rest o src

/-- `v[i] = x` on a `std::vector`: undefined behaviour (`none`) when
`i` is out of bounds. -/
def setElem? (l : List α) (i : Nat) (x : α) : Option (List α) :=
  if i < l.length then some (l.set i x) else none

/-- Modelled from the spec: `_doesValueFitInExistentialPayload` (its
body is not part of the provided sources) decides whether "the concrete
value's ordinary-data footprint fits within the leaf's reserved payload
region"; the reserved payload region of the existential leaf is its
size minus the 16-byte `(RTTI, WitnessTable)` header. -/
def doesValueFitInExistentialPayload
    (concreteTypeLayout existentialFieldLayout : TypeLayoutReflection) : Bool :=
  concreteTypeLayout.getSize + 16 ≤ existentialFieldLayout.getSize

/-- Modelled from the spec: `ShaderObjectBase::setExistentialHeader`
(its body is not part of the provided sources) "writes the 16-byte
existential header" — the RTTI type id and witness-table id — at the
binding's offset.  The numeric content of the two 8-byte ids comes from
the reflection and cache collaborators and plays no role in the claims;
only the size and placement of the write are modelled. -/
def existentialHeaderBytes : List Nat := List.replicate 16 0

def setExistentialHeader (data : List Nat) (uniformOffset : Nat) : List Nat :=
  writeBytes data uniformOffset existentialHeaderBytes

/-- Mirrors
`ShaderObjectBaseImpl::setSpecializationArgsForContainerElement`,
acting on component-id lists.  `dynamicTypeId` stands for
`shaderCache.getComponentId(session->getDynamicType())`, the id of the
sentinel `__Dynamic` type (stable for the lifetime of the cache).  The
source asserts that the stored and incoming lists have equal length in
the merge branch; `zipWith` realizes its loop over the stored list's
positions under that assertion. -/
def setSpecializationArgsForContainerElement (dynamicTypeId : ShaderComponentID)
    (stored incoming : List ShaderComponentID) : List ShaderComponentID :=
  if stored.length = 0 then incoming
  else List.zipWith (fun a b => if a = b then a else dynamicTypeId) stored incoming

theorem sizeOf_objects_lt (layout : ShaderObjectLayoutModel) (st : ObjState)
    (dt : List Nat) (objects : List (Option ShaderObjectM))
    (ua : List (Option (List ShaderComponentID))) (sb : List ShaderComponentID)
    (sp : Option ShaderComponentID) :
    sizeOf objects < sizeOf (ShaderObjectM.mk layout st dt objects ua sb sp) := by
  simp only [ShaderObjectM.mk.sizeOf_spec]
  omega

theorem sizeOf_sub_lt (objects : List (Option ShaderObjectM)) (i : Nat)
    (sub : ShaderObjectM) (h : objects.get? i = some (some sub)) :
    sizeOf sub < sizeOf objects := by
  have hmem : some sub ∈ objects := List.get?_mem h
  have h1 : sizeOf (some sub) < sizeOf objects := List.sizeOf_lt_of_mem hmem
  have h2 : sizeOf (some sub) = 1 + sizeOf sub := by
    simp [Option.some.sizeOf_spec]
  omega

mutual

/-- Mirrors `ShaderObjectBaseImpl::collectSpecializationArgs`: returns
the segment of component ids the call appends to `args`, paired with
the `Result` it returns; `none` models an out-of-bounds vector access
(undefined behaviour).  A structured-buffer-like container appends its
pre-merged element signature and returns; otherwise the sub-object
ranges are walked. -/
def collectSpecializationArgs (dynamicTypeId : ShaderComponentID)
    (o : ShaderObjectM) : Option (RhiResult × List ShaderComponentID) :=
  match o with
  | .mk layout st dt objects userArgs sbArgs spid =>
    if layout.containerType ≠ ShaderObjectContainerType.None then some (.ok, sbArgs)
    else collectRanges dynamicTypeId objects userArgs layout.bindingRanges
      layout.subObjectRanges
termination_by (sizeOf o * 4, 0)
decreasing_by
  apply Prod.Lex.left
  simp only [ShaderObjectM.mk.sizeOf_spec]
  omega

/-- The outer loop of `collectSpecializationArgs` over the layout's
sub-object ranges; each range contributes the segment produced by the
element loop, and the first failing element loop aborts the walk with
the segments appended so far. -/
def collectRanges (dynamicTypeId : ShaderComponentID)
    (objects : List (Option ShaderObjectM))
    (userArgs : List (Option (List ShaderComponentID)))
    (branges : List BindingRange) (ranges : List SubObjectRange) :
    Option (RhiResult × List ShaderComponentID) :=
  match ranges with
  | [] => some (.ok, [])
  | sr :: rest =>
    match branges.get? sr.bindingRangeIndex with
    | none => none
    | some br =>
      match collectElems dynamicTypeId objects userArgs br 0 br.count [] with
      | none => none
      | some (r, seg) =>
        if r ≠ RhiResult.ok then some (r, seg)
        else
          match collectRanges dynamicTypeId objects userArgs branges rest with
          | none => none
          | some (r2, segs) => some (r2, seg ++ segs)
termination_by (sizeOf objects * 4 + 3, ranges.length)
decreasing_by
  · apply Prod.Lex.left
    omega
  · apply Prod.Lex.right
    simp

/-- The inner loop of `collectSpecializationArgs` over the `count`
elements of one binding range: `i` is `subObjectIndexInRange`, `acc`
the segment already appended for this range
(`args[oldArgsCount...]`).  A null sub-object is skipped; a
user-provided specialization-argument list is appended verbatim and the
whole derivation is skipped (`args.addRange(...); continue;`);
otherwise the element's derived `typeArgs` either start the segment or
are merged into it positionally, replacing every differing position
with the `__Dynamic` sentinel id. -/
def collectElems (dynamicTypeId : ShaderComponentID)
    (objects : List (Option ShaderObjectM))
    (userArgs : List (Option (List ShaderComponentID)))
    (br : BindingRange) (i : Nat) (remaining : Nat)
    (acc : List ShaderComponentID) : Option (RhiResult × List ShaderComponentID) :=
  match remaining with
  | 0 => some (.ok, acc)
  | rem + 1 =>
    match h : objects.get? (br.subObjectIndex + i) with
    | none => none
    | some none => collectElems dynamicTypeId objects userArgs br (i + 1) rem acc
    | some (some subObject) =>
      match userArgs.get? (br.subObjectIndex + i) with
      | some (some userList) =>
          collectElems dynamicTypeId objects userArgs br (i + 1) rem (acc ++ userList)
      | _ =>
        match collectTypeArgs dynamicTypeId br subObject with
        | none => none
        | some (Sum.inl r) => some (r, acc)
        | some (Sum.inr typeArgs) =>
          if acc.length = 0 then
            collectElems dynamicTypeId objects userArgs br (i + 1) rem typeArgs
          else if typeArgs.length < acc.length then none
          else collectElems dynamicTypeId objects userArgs br (i + 1) rem
            (List.zipWith (fun a b => if a = b then a else dynamicTypeId) acc typeArgs)
termination_by (sizeOf objects * 4 + 2, remaining)
decreasing_by
  · apply Prod.Lex.right
    omega
  · apply Prod.Lex.right
    omega
  · apply Prod.Lex.left
    have h2 := sizeOf_sub_lt _ _ _ (by assumption)
    omega
  · apply Prod.Lex.right
    omega
  · apply Prod.Lex.right
    omega

/-- The per-element derivation of `typeArgs` inside
`collectSpecializationArgs`, switching on the binding type:
an existential value contributes the sub-object's specialized type; a
parameter-block/constant-buffer/raw-buffer binding contributes the
specialized type only when the range is marked specializable and always
recurses into the sub-object; any other binding type contributes
nothing.  `Sum.inl r` is the `SLANG_RETURN_ON_FAIL` path. -/
def collectTypeArgs (dynamicTypeId : ShaderComponentID) (br : BindingRange)
    (subObject : ShaderObjectM) :
    Option (Sum RhiResult (List ShaderComponentID)) :=
  match br.bindingType with
  | .ExistentialValue =>
      match subObject.specializedTypeId with
      | none => some (Sum.inl .fail)
      | some cid => some (Sum.inr [cid])
  | .ParameterBlock | .ConstantBuffer | .RawBuffer | .MutableRawBuffer =>
      match (if br.isSpecializable then
          (match subObject.specializedTypeId with
           | none => Sum.inl RhiResult.fail
           | some cid => Sum.inr [cid])
        else Sum.inr ([] : List ShaderComponentID)) with
      | Sum.inl r => some (Sum.inl r)
      | Sum.inr firstIds =>
        match collectSpecializationArgs dynamicTypeId subObject with
        | none => none
        | some (r, subSeg) =>
          if r ≠ RhiResult.ok then some (Sum.inl r)
          else some (Sum.inr (firstIds ++ subSeg))
  | .OtherBinding => some (Sum.inr [])
termination_by (sizeOf subObject * 4 + 1, 0)
decreasing_by
  apply Prod.Lex.left
  omega

end

mutual

/-- Mirrors `ShaderObjectBaseImpl::finalize`: fail if already
finalized, otherwise finalize every non-null unfinalized sub-object in
order (aborting on the first failure) and transition to `Finalized`. -/
def finalize (o : ShaderObjectM) : RhiResult × ShaderObjectM :=
  match o with
  | .mk layout st dt objects userArgs sbArgs spid =>
    if st = ObjState.Finalized then (.fail, .mk layout st dt objects userArgs sbArgs spid)
    else
      match finalizeList objects with
      | (.ok, objects2) =>
        (.ok, .mk layout ObjState.Finalized dt objects2 userArgs sbArgs spid)
      | (r, objects2) => (r, .mk layout st dt objects2 userArgs sbArgs spid)
termination_by sizeOf o
decreasing_by
  simp only [ShaderObjectM.mk.sizeOf_spec]
  omega

/-- The `for (auto& object : m_objects)` loop of `finalize`. -/
def finalizeList (objects : List (Option ShaderObjectM)) :
    RhiResult × List (Option ShaderObjectM) :=
  match objects with
  | [] => (.ok, [])
  | none :: rest =>
    match finalizeList rest with
    | (r, rest2) => (r, none :: rest2)
  | some c :: rest =>
    if c.isFinalized then
      match finalizeList rest with
      | (r, rest2) => (r, some c :: rest2)
    else
      match finalize c with
      | (.ok, c2) =>
        match finalizeList rest with
        | (r, rest2) => (r, some c2 :: rest2)
      | (r, c2) => (r, some c2 :: rest)
termination_by sizeOf objects
decreasing_by
  all_goals simp only [List.cons.sizeOf_spec, Option.some.sizeOf_spec,
    Option.none.sizeOf_spec]
  all_goals omega

end

mutual

/-- A shader object is recursively finalized: its own state is
`Finalized` and so is every bound sub-object's, transitively. -/
def allFinalized (o : ShaderObjectM) : Bool :=
  match o with
  | .mk layout st dt objects userArgs sbArgs spid =>
    decide (st = ObjState.Finalized) && allFinalizedList objects
termination_by sizeOf o
decreasing_by
  simp only [ShaderObjectM.mk.sizeOf_spec]
  omega

def allFinalizedList (objects : List (Option ShaderObjectM)) : Bool :=
  match objects with
  | [] => true
  | none :: rest => allFinalizedList rest
  | some c :: rest => allFinalized c && allFinalizedList rest
termination_by sizeOf objects
decreasing_by
  all_goals simp only [List.cons.sizeOf_spec, Option.some.sizeOf_spec,
    Option.none.sizeOf_spec]
  all_goals omega

end

/-- The body of `ShaderObjectBaseImpl::setObject` after its state
gate.  Case 1 (`this` is a structured-buffer-like container) grows the
sub-object list and data buffer, stores the element, writes the
existential header when the element type is an interface,
copies the element's ordinary data at the payload offset and merges the
element's specialization signature.  Cases 2 and 3 validate
`bindingRangeIndex`, store the sub-object, and dispatch on the
binding type: an existential-value leaf writes the header and either
copies the payload or fails with not-implemented; a raw-buffer leaf
binds a device buffer resource (no state modelled here); anything else
just stores the sub-object. -/
def setObjectBody (dynamicTypeId : ShaderComponentID) (o : ShaderObjectM)
    (offset : ShaderOffset) (subObject : ShaderObjectM) :
    Option (RhiResult × ShaderObjectM) :=
  match o with
  | .mk layout st dt objects userArgs sbArgs spid =>
    if layout.containerType ≠ ShaderObjectContainerType.None then
      let grow := decide (offset.bindingArrayIndex ≥ objects.length)
      let objects1 := if grow then vecResize objects (offset.bindingArrayIndex + 1) none
        else objects
      let data1 := if grow then
          vecResize dt (objects1.length * layout.elementTypeLayout.getStride) 0
        else dt
      let objects2 := objects1.set offset.bindingArrayIndex (some subObject)
      if layout.elementTypeLayout.getKind = TypeKind.Interface then
        match subObject.specializedTypeId with
        | none => some (.fail, .mk layout st data1 objects2 userArgs sbArgs spid)
        | some cid =>
          let data2 := setExistentialHeader data1 offset.uniformOffset
          let data3 := writeBytes data2 (offset.uniformOffset + 16) subObject.data
          some (.ok, .mk layout st data3 objects2 userArgs
            (setSpecializationArgsForContainerElement dynamicTypeId sbArgs [cid]) spid)
      else
        match collectSpecializationArgs dynamicTypeId subObject with
        | none => none
        | some (_, seg) =>
          let data2 := writeBytes data1 offset.uniformOffset subObject.data
          some (.ok, .mk layout st data2 objects2 userArgs
            (setSpecializationArgsForContainerElement dynamicTypeId sbArgs seg) spid)
    else
      if offset.bindingRangeIndex < 0 then some (.eInvalidArg, o)
      else
        match layout.bindingRanges.get? offset.bindingRangeIndex.toNat with
        | none => some (.eInvalidArg, o)
        | some br =>
          match setElem? objects (br.subObjectIndex + offset.bindingArrayIndex)
              (some subObject) with
          | none => none
          | some objects2 =>
            match br.bindingType with
            | .ExistentialValue =>
              let data2 := setExistentialHeader dt offset.uniformOffset
              if doesValueFitInExistentialPayload subObject.layout.elementTypeLayout
                  br.leafTypeLayout then
                let data3 := writeBytes data2 (offset.uniformOffset + 16) subObject.data
                some (.ok, .mk layout st data3 objects2 userArgs sbArgs spid)
              else
                some (.eNotImplemented, .mk layout st data2 objects2 userArgs sbArgs spid)
            | .RawBuffer | .MutableRawBuffer =>
                some (.ok, .mk layout st dt objects2 userArgs sbArgs spid)
            | _ => some (.ok, .mk layout st dt objects2 userArgs sbArgs spid)

/-- Mirrors `ShaderObjectBaseImpl::setObject`: the state gate (`switch
(m_state)`) followed by the body. -/
def setObject (dynamicTypeId : ShaderComponentID) (o : ShaderObjectM)
    (offset : ShaderOffset) (subObject : ShaderObjectM) :
    Option (RhiResult × ShaderObjectM) :=
  match o.state with
  | .Initial => setObjectBody dynamicTypeId o offset subObject
  | .Initialized =>
      if subObject.isFinalized then setObjectBody dynamicTypeId o offset subObject
      else some (.fail, o)
  | .Finalized => some (.fail, o)

/-- Mirrors `ShaderObjectBaseImpl::getObject`: validate
`bindingRangeIndex` (negative or past the binding-range count is an
invalid argument), then return
`m_objects[bindingRange.subObjectIndex + offset.bindingArrayIndex]`
through `returnComPtr`, with no bounds check on `bindingArrayIndex`.
An out-of-bounds vector access is undefined behaviour (`none`); so is
an in-bounds null entry, because `returnComPtr` unconditionally
executes `refPtr->addRef()` through the stored pointer — a
null-pointer virtual call. -/
def getObject (o : ShaderObjectM) (offset : ShaderOffset) :
    Option (RhiResult × Option ShaderObjectM) :=
  match o with
  | .mk layout _ _ objects _ _ _ =>
    if offset.bindingRangeIndex < 0 then some (.eInvalidArg, none)
    else
      match layout.bindingRanges.get? offset.bindingRangeIndex.toNat with
      | none => some (.eInvalidArg, none)
      | some br =>
        match objects.get? (br.subObjectIndex + offset.bindingArrayIndex) with
        | none => none
        | some none => none
        | some (some entry) => some (.ok, some entry)

/-- Mirrors `ShaderObjectBaseImpl::setSpecializationArgs`.  The
incoming `slang::SpecializationArg` array arrives already interned as
component ids (`getExtendedShaderTypeListFromSpecializationArgs`
interns each type argument through the shader cache and fails only on
non-type arguments, which the model's input excludes by construction). -/
def setSpecializationArgs (dynamicTypeId : ShaderComponentID) (o : ShaderObjectM)
    (offset : ShaderOffset) (argIds : List ShaderComponentID) :
    RhiResult × ShaderObjectM :=
  match o with
  | .mk layout st dt objects userArgs sbArgs spid =>
    if st = ObjState.Finalized then (.fail, .mk layout st dt objects userArgs sbArgs spid)
    else if layout.containerType ≠ ShaderObjectContainerType.None then
      (.ok, .mk layout st dt objects userArgs
        (setSpecializationArgsForContainerElement dynamicTypeId sbArgs argIds) spid)
    else if offset.bindingRangeIndex < 0 then
      (.eInvalidArg, .mk layout st dt objects userArgs sbArgs spid)
    else
      match layout.bindingRanges.get? offset.bindingRangeIndex.toNat with
      | none => (.eInvalidArg, .mk layout st dt objects userArgs sbArgs spid)
      | some br =>
        let objectIndex := br.subObjectIndex + offset.bindingArrayIndex
        let userArgs1 := if objectIndex ≥ userArgs.length then
            vecResize userArgs (objectIndex + 1) none
          else userArgs
        (.ok, .mk layout st dt objects (userArgs1.set objectIndex (some argIds)) sbArgs spid)

/-! C1: the element specialization-signature merge. -/

theorem mergeStored_length (dynamicTypeId : ShaderComponentID)
    (stored incoming : List ShaderComponentID) (hlen : incoming.length = stored.length)
    (hs : stored.length ≠ 0) :
    (setSpecializationArgsForContainerElement dynamicTypeId stored incoming).length =
      stored.length := by
  unfold setSpecializationArgsForContainerElement
  rw [if_neg hs]
  simp [List.length_zipWith, hlen]

theorem mergeStored_get? (dynamicTypeId : ShaderComponentID)
    (stored incoming : List ShaderComponentID) (hs : stored.length ≠ 0)
    (i : Nat) (a b : ShaderComponentID) (ha : stored.get? i = some a)
    (hb : incoming.get? i = some b) :
    (setSpecializationArgsForContainerElement dynamicTypeId stored incoming).get? i =
      some (if a = b then a else dynamicTypeId) := by
  unfold setSpecializationArgsForContainerElement
  rw [if_neg hs]
  rw [List.get?_zipWith' _ stored incoming i, ha, hb]
  rfl

theorem foldMerge_get? (dynamicTypeId : ShaderComponentID) :
    ∀ (rest : List (List ShaderComponentID)) (stored : List ShaderComponentID),
    stored.length ≠ 0 →
    (∀ l ∈ rest, l.length = stored.length) → ∀ (i : Nat), i < stored.length →
    (rest.foldl (setSpecializationArgsForContainerElement dynamicTypeId) stored).get? i =
      if ∀ l ∈ rest, l.get? i = stored.get? i then stored.get? i
      else some dynamicTypeId := by
  intro rest
  induction rest with
  | nil =>
    intro stored hs hlen i hi
    simp
  | cons l rest ih =>
    intro stored hs hlen i hi
    have hlenl : l.length = stored.length := hlen l (List.mem_cons_self l rest)
    have hil : i < l.length := by omega
    obtain ⟨a, ha⟩ : ∃ a, stored.get? i = some a := by
      rw [List.get?_eq_get hi]; exact ⟨_, rfl⟩
    obtain ⟨b, hb⟩ : ∃ b, l.get? i = some b := by
      rw [List.get?_eq_get hil]; exact ⟨_, rfl⟩
    have hstep := mergeStored_get? dynamicTypeId stored l hs i a b ha hb
    have hslen := mergeStored_length dynamicTypeId stored l hlenl hs
    have hs2 : (setSpecializationArgsForContainerElement dynamicTypeId stored l).length ≠ 0 := by
      rw [hslen]; exact hs
    have hlen2 : ∀ l2 ∈ rest,
        l2.length = (setSpecializationArgsForContainerElement dynamicTypeId stored l).length := by
      intro l2 hl2
      rw [hslen]
      exact hlen l2 (List.mem_cons_of_mem l hl2)
    have hi2 : i < (setSpecializationArgsForContainerElement dynamicTypeId stored l).length := by
      rw [hslen]; exact hi
    have ihres := ih (setSpecializationArgsForContainerElement dynamicTypeId stored l)
      hs2 hlen2 i hi2
    rw [List.foldl_cons, ihres]
    by_cases hab : a = b
    · have heq : (setSpecializationArgsForContainerElement dynamicTypeId stored l).get? i =
          stored.get? i := by
        rw [hstep, if_pos hab, ha]
      rw [heq]
      have hcond : (∀ l2 ∈ l :: rest, l2.get? i = stored.get? i) ↔
          (∀ l2 ∈ rest, l2.get? i = stored.get? i) := by
        constructor
        · intro h l2 hl2
          exact h l2 (List.mem_cons_of_mem l hl2)
        · intro h l2 hl2
          rcases List.mem_cons.mp hl2 with hl2 | hl2
          · rw [hl2, hb, ha, hab]
          · exact h l2 hl2
      by_cases hall : ∀ l2 ∈ rest, l2.get? i = stored.get? i
      · rw [if_pos hall, if_pos (hcond.mpr hall)]
      · rw [if_neg hall, if_neg (fun hc => hall (hcond.mp hc))]
    · have heq : (setSpecializationArgsForContainerElement dynamicTypeId stored l).get? i =
          some dynamicTypeId := by
        rw [hstep, if_neg hab]
      rw [heq]
      have hnot : ¬ ∀ l2 ∈ l :: rest, l2.get? i = stored.get? i := by
        intro hc
        have := hc l (List.mem_cons_self l rest)
        rw [hb, ha] at this
        exact hab (Option.some.injEq b a ▸ this).symm
      rw [if_neg hnot]
      by_cases hall : ∀ l2 ∈ rest, l2.get? i = some dynamicTypeId
      · rw [if_pos hall]
      · rw [if_neg hall]

/-- C1: the element specialization-signature merge
(`setSpecializationArgsForContainerElement`).  The first merged element
list is adopted unchanged (the stored list starts empty); in every later
merge, a position whose component id differs from the stored one is
replaced by the sentinel dynamic type's id; and after merging any
sequence of equal-length element lists, a position at which every
element agrees with the first retains the first element's concrete id,
while a position at which some element disagrees holds the dynamic
sentinel id. -/
theorem containerElement_merge_signature (dynamicTypeId : ShaderComponentID)
    (first : List ShaderComponentID) (rest : List (List ShaderComponentID))
    (hlen : ∀ l ∈ rest, l.length = first.length) (i : Nat) (hi : i < first.length) :
    setSpecializationArgsForContainerElement dynamicTypeId [] first = first ∧
    (∀ (stored incoming : List ShaderComponentID) (a b : ShaderComponentID),
      stored.length ≠ 0 → stored.get? i = some a → incoming.get? i = some b → a ≠ b →
      (setSpecializationArgsForContainerElement dynamicTypeId stored incoming).get? i =
        some dynamicTypeId) ∧
    ((∀ l ∈ rest, l.get? i = first.get? i) →
      ((first :: rest).foldl (setSpecializationArgsForContainerElement dynamicTypeId)
        []).get? i = first.get? i) ∧
    ((∃ l ∈ rest, l.get? i ≠ first.get? i) →
      ((first :: rest).foldl (setSpecializationArgsForContainerElement dynamicTypeId)
        []).get? i = some dynamicTypeId) := by
  have hfirst : setSpecializationArgsForContainerElement dynamicTypeId [] first = first := by
    unfold setSpecializationArgsForContainerElement
    simp
  have hs : first.length ≠ 0 := by omega
  have hfold : (first :: rest).foldl
      (setSpecializationArgsForContainerElement dynamicTypeId) [] =
      rest.foldl (setSpecializationArgsForContainerElement dynamicTypeId) first := by
    rw [List.foldl_cons, hfirst]
  refine ⟨hfirst, ?_, ?_, ?_⟩
  · intro stored incoming a b hs2 ha hb hab
    rw [mergeStored_get? dynamicTypeId stored incoming hs2 i a b ha hb, if_neg hab]
  · intro hall
    rw [hfold, foldMerge_get? dynamicTypeId rest first hs hlen i hi, if_pos hall]
  · intro hex
    have hnot : ¬ ∀ l ∈ rest, l.get? i = first.get? i := by
      rcases hex with ⟨l, hl, hne⟩
      intro hc
      exact hne (hc l hl)
    rw [hfold, foldMerge_get? dynamicTypeId rest first hs hlen i hi, if_neg hnot]

/-- Witness for C1: merging the two element signatures `[1, 2]` and
`[1, 3]` with sentinel id `99` keeps the agreeing position 0 at its
concrete id `1` and replaces the diverging position 1 with `99`. -/
theorem containerElement_merge_signature_witness :
    (([1, 2] :: [[1, 3]]).foldl (setSpecializationArgsForContainerElement 99)
      []).get? 0 = some 1 ∧
    (([1, 2] :: [[1, 3]]).foldl (setSpecializationArgsForContainerElement 99)
      []).get? 1 = some 99 := by
  constructor
  · exact (containerElement_merge_signature 99 [1, 2] [[1, 3]]
      (by intro l hl; simp at hl; rw [hl]; decide) 0 (by decide)).2.2.1
      (by intro l hl; simp at hl; rw [hl]; decide)
  · exact (containerElement_merge_signature 99 [1, 2] [[1, 3]]
      (by intro l hl; simp at hl; rw [hl]; decide) 1 (by decide)).2.2.2
      ⟨[1, 3], by simp, by decide⟩

/-! C3 and C4: the shader object state machine. -/

/-- C3: the state gate of `setObject`.  A `Finalized` object rejects
every `setObject` call with a failure and is left unchanged; an
`Initialized` object rejects a sub-object that is not itself finalized,
unchanged; an object still in its `Initial` state runs the normal body
(no finalization requirement on the sub-object). -/
theorem setObject_state_gate (dynamicTypeId : ShaderComponentID) (o : ShaderObjectM)
    (offset : ShaderOffset) (subObject : ShaderObjectM) :
    (o.state = ObjState.Finalized →
      setObject dynamicTypeId o offset subObject = some (.fail, o)) ∧
    (o.state = ObjState.Initialized → subObject.state ≠ ObjState.Finalized →
      setObject dynamicTypeId o offset subObject = some (.fail, o)) ∧
    (o.state = ObjState.Initial →
      setObject dynamicTypeId o offset subObject =
        setObjectBody dynamicTypeId o offset subObject) := by
  refine ⟨?_, ?_, ?_⟩
  · intro h
    simp [setObject, h]
  · intro h hsub
    have hfin : subObject.isFinalized = false := by
      simp [ShaderObjectM.isFinalized, hsub]
    simp [setObject, h, hfin]
  · intro h
    simp [setObject, h]

/-- A shader object layout with no container classification, no binding
ranges and no sub-object ranges, used to build concrete witnesses. -/
def emptyLayout : ShaderObjectLayoutModel :=
  { containerType := ShaderObjectContainerType.None,
    elementTypeLayout := plainStructLayout,
    bindingRanges := [], subObjectRanges := [] }

def objInitialW : ShaderObjectM := .mk emptyLayout ObjState.Initial [] [] [] [] none

def objInitializedW : ShaderObjectM := .mk emptyLayout ObjState.Initialized [] [] [] [] none

def objFinalizedW : ShaderObjectM := .mk emptyLayout ObjState.Finalized [] [] [] [] none

def offsetZero : ShaderOffset :=
  { uniformOffset := 0, bindingRangeIndex := 0, bindingArrayIndex := 0 }

/-- Witness for C3 at concrete objects: a finalized target rejects, an
initialized target rejects an unfinalized sub-object, an initial target
accepts it (runs the body). -/
theorem setObject_state_gate_witness :
    setObject 0 objFinalizedW offsetZero objInitialW = some (.fail, objFinalizedW) ∧
    setObject 0 objInitializedW offsetZero objInitialW = some (.fail, objInitializedW) ∧
    setObject 0 objInitialW offsetZero objInitialW =
      setObjectBody 0 objInitialW offsetZero objInitialW := by
  refine ⟨?_, ?_, ?_⟩
  · exact (setObject_state_gate 0 objFinalizedW offsetZero objInitialW).1 rfl
  · exact (setObject_state_gate 0 objInitializedW offsetZero objInitialW).2.1 rfl
      (by decide)
  · exact (setObject_state_gate 0 objInitialW offsetZero objInitialW).2.2 rfl

/-! For C4: the state invariant that an already-`Finalized` object is
recursively finalized.  `finalize` skips sub-objects whose `isFinalized()`
already reports true, so its recursive-finalization postcondition relies
on this invariant of reachable states (objects only ever become
`Finalized` through `finalize`, which finalizes the whole subtree). -/

mutual

def finalizedClosed (o : ShaderObjectM) : Bool :=
  match o with
  | .mk _ st _ objects _ _ _ =>
    (!decide (st = ObjState.Finalized) || allFinalizedList objects) &&
      finalizedClosedList objects
termination_by sizeOf o
decreasing_by
  simp only [ShaderObjectM.mk.sizeOf_spec]
  omega

def finalizedClosedList (objects : List (Option ShaderObjectM)) : Bool :=
  match objects with
  | [] => true
  | none :: rest => finalizedClosedList rest
  | some c :: rest => finalizedClosed c && finalizedClosedList rest
termination_by sizeOf objects
decreasing_by
  all_goals simp only [List.cons.sizeOf_spec, Option.some.sizeOf_spec,
    Option.none.sizeOf_spec]
  all_goals omega

end

theorem allFinalized_of_closed (c : ShaderObjectM) (hwf : finalizedClosed c = true)
    (hfin : c.isFinalized = true) : allFinalized c = true := by
  cases c with
  | mk layout st dt objects ua sb sp =>
    rw [finalizedClosed] at hwf
    rw [allFinalized]
    simp only [ShaderObjectM.isFinalized, ShaderObjectM.state] at hfin
    simp only [Bool.and_eq_true, Bool.or_eq_true] at hwf
    rcases hwf with ⟨hor, -⟩
    rcases hor with hbad | hgood
    · rw [hfin] at hbad
      simp at hbad
    · simp [hfin, hgood]

theorem finalize_aux : ∀ N : Nat,
    (∀ o : ShaderObjectM, sizeOf o < N → o.state ≠ ObjState.Finalized →
      (finalize o).1 = RhiResult.ok ∧ (finalize o).2.state = ObjState.Finalized ∧
      (finalizedClosed o = true → allFinalized (finalize o).2 = true)) ∧
    (∀ l : List (Option ShaderObjectM), sizeOf l < N →
      (finalizeList l).1 = RhiResult.ok ∧
      (finalizedClosedList l = true → allFinalizedList (finalizeList l).2 = true)) := by
  intro N
  induction N with
  | zero => exact ⟨fun o h => absurd h (by omega), fun l h => absurd h (by omega)⟩
  | succ N ih =>
    obtain ⟨iho, ihl⟩ := ih
    constructor
    · intro o hsz hst
      cases o with
      | mk layout st dt objects ua sb sp =>
        have hszl : sizeOf objects < N := by
          have := sizeOf_objects_lt layout st dt objects ua sb sp
          omega
        obtain ⟨hok, hall⟩ := ihl objects hszl
        simp only [ShaderObjectM.state] at hst
        rw [finalize]
        rw [if_neg hst]
        rcases hfl : finalizeList objects with ⟨r, objects2⟩
        rw [hfl] at hok
        simp only at hok
        subst hok
        refine ⟨rfl, rfl, ?_⟩
        intro hwf
        rw [finalizedClosed] at hwf
        simp only [Bool.and_eq_true] at hwf
        rw [allFinalized]
        simp only [ShaderObjectM.state, decide_eq_true_eq, Bool.and_eq_true]
        have := hall hwf.2
        rw [hfl] at this
        exact ⟨by simp, this⟩
    · intro l hsz
      match l with
      | [] =>
        rw [finalizeList]
        refine ⟨rfl, fun _ => ?_⟩
        rw [allFinalizedList]
      | none :: rest =>
        have hszr : sizeOf rest < N := by
          simp only [List.cons.sizeOf_spec] at hsz
          omega
        obtain ⟨hok, hall⟩ := ihl rest hszr
        rw [finalizeList]
        rcases hfl : finalizeList rest with ⟨r, rest2⟩
        rw [hfl] at hok hall
        simp only at hok hall
        subst hok
        refine ⟨rfl, ?_⟩
        intro hwf
        rw [finalizedClosedList] at hwf
        rw [allFinalizedList]
        exact hall hwf
      | some c :: rest =>
        have hszc : sizeOf c < N := by
          simp only [List.cons.sizeOf_spec, Option.some.sizeOf_spec] at hsz
          omega
        have hszr : sizeOf rest < N := by
          simp only [List.cons.sizeOf_spec] at hsz
          omega
        obtain ⟨hokr, hallr⟩ := ihl rest hszr
        rw [finalizeList]
        by_cases hfin : c.isFinalized = true
        · rw [if_pos hfin]
          rcases hfl : finalizeList rest with ⟨r, rest2⟩
          rw [hfl] at hokr hallr
          simp only at hokr hallr
          subst hokr
          refine ⟨rfl, ?_⟩
          intro hwf
          rw [finalizedClosedList] at hwf
          simp only [Bool.and_eq_true] at hwf
          rw [allFinalizedList]
          simp only [Bool.and_eq_true]
          exact ⟨allFinalized_of_closed c hwf.1 hfin, hallr hwf.2⟩
        · rw [if_neg hfin]
          have hstc : c.state ≠ ObjState.Finalized := by
            intro hc
            exact hfin (by simp [ShaderObjectM.isFinalized, hc])
          obtain ⟨hokc, hstc2, hallc⟩ := iho c hszc hstc
          rcases hfc : finalize c with ⟨rc, c2⟩
          rw [hfc] at hokc hstc2 hallc
          simp only at hokc hstc2 hallc
          subst hokc
          rcases hfl : finalizeList rest with ⟨r, rest2⟩
          rw [hfl] at hokr hallr
          simp only at hokr hallr
          subst hokr
          refine ⟨rfl, ?_⟩
          intro hwf
          rw [finalizedClosedList] at hwf
          simp only [Bool.and_eq_true] at hwf
          rw [allFinalizedList]
          simp only [Bool.and_eq_true]
          refine ⟨?_, hallr hwf.2⟩
          have := hallc hwf.1
          cases c2 with
          | mk l2 s2 d2 o2 u2 b2 p2 =>
            exact this

theorem finalize_on_finalized (o : ShaderObjectM) (h : o.state = ObjState.Finalized) :
    finalize o = (.fail, o) := by
  cases o with
  | mk layout st dt objects ua sb sp =>
    simp only [ShaderObjectM.state] at h
    rw [finalize, if_pos h]

theorem setSpecializationArgs_on_finalized (dynamicTypeId : ShaderComponentID)
    (o : ShaderObjectM) (offset : ShaderOffset) (argIds : List ShaderComponentID)
    (h : o.state = ObjState.Finalized) :
    setSpecializationArgs dynamicTypeId o offset argIds = (.fail, o) := by
  cases o with
  | mk layout st dt objects ua sb sp =>
    simp only [ShaderObjectM.state] at h
    rw [setSpecializationArgs]
    rw [if_pos h]

/-- C4: when `finalize` succeeds the object's state is `Finalized` and
— given the reachable-state invariant that already-finalized sub-objects
are recursively finalized — every bound sub-object has been recursively
finalized; afterwards every `setObject` and every
`setSpecializationArgs` call fails leaving the object unchanged, and a
second `finalize` fails as well. -/
theorem finalize_freezes (o : ShaderObjectM) (hwf : finalizedClosed o = true)
    (r : RhiResult) (o2 : ShaderObjectM) (hf : finalize o = (r, o2))
    (hr : r = RhiResult.ok) :
    o2.state = ObjState.Finalized ∧ allFinalized o2 = true ∧
    (∀ dynamicTypeId offset subObject,
      setObject dynamicTypeId o2 offset subObject = some (.fail, o2)) ∧
    (∀ dynamicTypeId offset argIds,
      setSpecializationArgs dynamicTypeId o2 offset argIds = (.fail, o2)) ∧
    finalize o2 = (.fail, o2) := by
  subst hr
  have hst : o.state ≠ ObjState.Finalized := by
    intro hc
    rw [finalize_on_finalized o hc] at hf
    cases hf
  obtain ⟨hok, hst2, hall⟩ := (finalize_aux (sizeOf o + 1)).1 o (by omega) hst
  rw [hf] at hok hst2 hall
  simp only at hok hst2 hall
  refine ⟨hst2, hall hwf, ?_, ?_, finalize_on_finalized o2 hst2⟩
  · intro dynamicTypeId offset subObject
    exact (setObject_state_gate dynamicTypeId o2 offset subObject).1 hst2
  · intro dynamicTypeId offset argIds
    exact setSpecializationArgs_on_finalized dynamicTypeId o2 offset argIds hst2

def objChildW : ShaderObjectM := .mk emptyLayout ObjState.Initial [] [] [] [] none

def objParentW : ShaderObjectM :=
  .mk emptyLayout ObjState.Initialized [] [some objChildW] [] [] none

def objChildFinW : ShaderObjectM := .mk emptyLayout ObjState.Finalized [] [] [] [] none

def objParentFinW : ShaderObjectM :=
  .mk emptyLayout ObjState.Finalized [] [some objChildFinW] [] [] none

/-- Witness for C4: finalizing a concrete parent with one unfinalized
child succeeds, finalizes the child recursively, and afterwards
`setObject`, `setSpecializationArgs` and a second `finalize` all fail
without changing the object. -/
theorem finalize_freezes_witness :
    objParentFinW.state = ObjState.Finalized ∧ allFinalized objParentFinW = true ∧
    setObject 0 objParentFinW offsetZero objChildW = some (.fail, objParentFinW) ∧
    setSpecializationArgs 0 objParentFinW offsetZero [] = (.fail, objParentFinW) ∧
    finalize objParentFinW = (.fail, objParentFinW) := by
  have hwf : finalizedClosed objParentW = true := by
    simp [objParentW, objChildW, finalizedClosed, finalizedClosedList, allFinalizedList]
  have hf : finalize objParentW = (.ok, objParentFinW) := by
    simp [objParentW, objChildW, objParentFinW, objChildFinW, finalize, finalizeList,
      ShaderObjectM.isFinalized, ShaderObjectM.state]
  obtain ⟨h1, h2, h3, h4, h5⟩ := finalize_freezes objParentW hwf .ok objParentFinW hf rfl
  exact ⟨h1, h2, h3 0 offsetZero objChildW, h4 0 offsetZero [], h5⟩

/-! C5: user-provided specialization arguments take precedence. -/

/-- C5: inside `collectSpecializationArgs`, an element index whose
`m_userProvidedSpecializationArgs` entry is set (in range and non-null)
appends exactly that list to the output and skips the whole
derivation from the bound sub-object: the element loop's step at that
index is `args.addRange(userList); continue;`, a continuation that does
not depend on which sub-object is bound there (no existential-type
lookup, no recursion, and no dynamic-sentinel merging). -/
theorem collect_userProvided_override (dynamicTypeId : ShaderComponentID)
    (objects : List (Option ShaderObjectM))
    (userArgs : List (Option (List ShaderComponentID))) (br : BindingRange)
    (i rem : Nat) (acc : List ShaderComponentID) (sub : ShaderObjectM)
    (userList : List ShaderComponentID)
    (hobj : objects.get? (br.subObjectIndex + i) = some (some sub))
    (huser : userArgs.get? (br.subObjectIndex + i) = some (some userList)) :
    collectElems dynamicTypeId objects userArgs br i (rem + 1) acc =
      collectElems dynamicTypeId objects userArgs br (i + 1) rem (acc ++ userList) := by
  rw [collectElems]
  split
  · rename_i hx
    rw [hobj] at hx
    cases hx
  · rename_i hx
    rw [hobj] at hx
    cases hx
  · rename_i x hx
    rw [hobj] at hx
    injection hx with hx2
    injection hx2 with hx3
    subst hx3
    rw [huser]

def objSubW : ShaderObjectM := .mk emptyLayout ObjState.Initial [5] [] [] [] (some 3)

def brExistentialW : BindingRange :=
  { bindingType := BindingType.ExistentialValue, count := 1, subObjectIndex := 0,
    isSpecializable := false, leafTypeLayout := plainStructLayout }

/-- Witness for C5: with a user-provided list `[7]` at index 0, the
element step appends `[7]` and continues, ignoring the bound
sub-object (whose own specialized type id is `3`). -/
theorem collect_userProvided_override_witness :
    collectElems 99 [some objSubW] [some [7]] brExistentialW 0 1 [] =
      collectElems 99 [some objSubW] [some [7]] brExistentialW 1 0 ([] ++ [7]) := by
  exact collect_userProvided_override 99 [some objSubW] [some [7]] brExistentialW 0 0 []
    objSubW [7] rfl rfl

/-! C7: the existential-value leaf case of `setObject`. -/

/-- C7: storing a sub-object into an existential-value
(interface-typed) leaf binding writes the 16-byte existential header at
the binding's offset, and then: if the concrete value's ordinary data
fits in the reserved payload region
(`_doesValueFitInExistentialPayload`), the sub-object's ordinary-data
bytes are copied at the offset advanced by 16 and the call succeeds;
otherwise the call returns `SLANG_E_NOT_IMPLEMENTED` (the header
already written and the sub-object reference already stored). -/
theorem setObject_existential_leaf (dynamicTypeId : ShaderComponentID)
    (layout : ShaderObjectLayoutModel) (dt : List Nat)
    (objects : List (Option ShaderObjectM))
    (ua : List (Option (List ShaderComponentID))) (sb : List ShaderComponentID)
    (sp : Option ShaderComponentID) (offset : ShaderOffset) (subObject : ShaderObjectM)
    (br : BindingRange)
    (hcont : layout.containerType = ShaderObjectContainerType.None)
    (hbri : 0 ≤ offset.bindingRangeIndex)
    (hbr : layout.bindingRanges.get? offset.bindingRangeIndex.toNat = some br)
    (hbt : br.bindingType = BindingType.ExistentialValue)
    (hidx : br.subObjectIndex + offset.bindingArrayIndex < objects.length) :
    setObject dynamicTypeId (.mk layout ObjState.Initial dt objects ua sb sp) offset
        subObject =
      (if doesValueFitInExistentialPayload subObject.layout.elementTypeLayout
          br.leafTypeLayout then
        some (RhiResult.ok,
          ShaderObjectM.mk layout ObjState.Initial
            (writeBytes (setExistentialHeader dt offset.uniformOffset)
              (offset.uniformOffset + 16) subObject.data)
            (objects.set (br.subObjectIndex + offset.bindingArrayIndex) (some subObject))
            ua sb sp)
      else
        some (RhiResult.eNotImplemented,
          ShaderObjectM.mk layout ObjState.Initial
            (setExistentialHeader dt offset.uniformOffset)
            (objects.set (br.subObjectIndex + offset.bindingArrayIndex) (some subObject))
            ua sb sp)) := by
  have hgate : setObject dynamicTypeId
      (.mk layout ObjState.Initial dt objects ua sb sp) offset subObject =
      setObjectBody dynamicTypeId (.mk layout ObjState.Initial dt objects ua sb sp)
        offset subObject := by
    simp [setObject, ShaderObjectM.state]
  rw [hgate]
  rw [setObjectBody]
  rw [if_neg (by simp [hcont])]
  rw [if_neg (by omega)]
  have hset : setElem? objects (br.subObjectIndex + offset.bindingArrayIndex)
      (some subObject) =
      some (objects.set (br.subObjectIndex + offset.bindingArrayIndex) (some subObject)) := by
    unfold setElem?
    rw [if_pos hidx]
  simp only [hbr, hset, hbt]

def smallConcreteLayout : TypeLayoutReflection :=
  .mk .OtherKind true .OtherShape none 8 8

def subLayoutW : ShaderObjectLayoutModel :=
  { containerType := ShaderObjectContainerType.None,
    elementTypeLayout := smallConcreteLayout, bindingRanges := [], subObjectRanges := [] }

/-- A concrete sub-object with two bytes of ordinary data and a
concrete element type of size 8. -/
def subExistW : ShaderObjectM := .mk subLayoutW ObjState.Initial [1, 2] [] [] [] none

def bigLeafLayout : TypeLayoutReflection := .mk .Interface true .OtherShape none 32 32

def smallLeafLayout : TypeLayoutReflection := .mk .Interface true .OtherShape none 16 16

def brExistBigW : BindingRange :=
  { bindingType := BindingType.ExistentialValue, count := 1, subObjectIndex := 0,
    isSpecializable := false, leafTypeLayout := bigLeafLayout }

def brExistSmallW : BindingRange :=
  { bindingType := BindingType.ExistentialValue, count := 1, subObjectIndex := 0,
    isSpecializable := false, leafTypeLayout := smallLeafLayout }

def layoutExistBigW : ShaderObjectLayoutModel :=
  { containerType := ShaderObjectContainerType.None,
    elementTypeLayout := plainStructLayout, bindingRanges := [brExistBigW],
    subObjectRanges := [] }

def layoutExistSmallW : ShaderObjectLayoutModel :=
  { containerType := ShaderObjectContainerType.None,
    elementTypeLayout := plainStructLayout, bindingRanges := [brExistSmallW],
    subObjectRanges := [] }

def objExistBigW : ShaderObjectM :=
  .mk layoutExistBigW ObjState.Initial (List.replicate 40 0) [none] [] [] none

def objExistSmallW : ShaderObjectM :=
  .mk layoutExistSmallW ObjState.Initial (List.replicate 40 0) [none] [] [] none

/-- Witness for C7: against a 32-byte existential leaf, a concrete
value of size 8 fits (16 + 8 ≤ 32): the header lands at offset 0 and
the two payload bytes at offset 16, and the call succeeds; against a
16-byte leaf it does not fit (16 + 8 > 16) and the call returns
the not-implemented error after writing the header. -/
theorem setObject_existential_leaf_witness :
    setObject 0 objExistBigW offsetZero subExistW =
      some (RhiResult.ok, ShaderObjectM.mk layoutExistBigW ObjState.Initial
        (writeBytes (setExistentialHeader (List.replicate 40 0) 0) 16 [1, 2])
        [some subExistW] [] [] none) ∧
    setObject 0 objExistSmallW offsetZero subExistW =
      some (RhiResult.eNotImplemented, ShaderObjectM.mk layoutExistSmallW ObjState.Initial
        (setExistentialHeader (List.replicate 40 0) 0) [some subExistW] [] [] none) := by
  constructor
  · have h := setObject_existential_leaf 0 layoutExistBigW (List.replicate 40 0) [none]
      [] [] none offsetZero subExistW brExistBigW rfl (by decide) rfl rfl (by decide)
    rw [objExistBigW, h, if_pos (by decide)]
    rfl
  · have h := setObject_existential_leaf 0 layoutExistSmallW (List.replicate 40 0) [none]
      [] [] none offsetZero subExistW brExistSmallW rfl (by decide) rfl rfl (by decide)
    rw [objExistSmallW, h, if_neg (by decide)]
    rfl

/-! C8: growth of a structured-buffer-like container in `setObject`. -/

theorem vecResize_length (l : List α) (n : Nat) (x : α) : (vecResize l n x).length = n := by
  simp only [vecResize, List.length_append, List.length_take, List.length_replicate]
  omega

theorem vecResize_get?_new (l : List Nat) (n j : Nat) (h1 : l.length ≤ j) (h2 : j < n) :
    (vecResize l n 0).get? j = some 0 := by
  unfold vecResize
  have hlen : (l.take n).length = l.length := by
    rw [List.length_take]
    omega
  have hle : (l.take n).length ≤ j := by rw [hlen]; exact h1
  rw [List.get?_append_right hle, hlen]
  rw [List.get?_eq_getElem?]
  simp only [List.getElem?_replicate]
  rw [if_pos (by omega)]

/-- C8: `setObject` on a structured-buffer-like container, targeting an
element index at or beyond the current sub-object count, grows the
sub-object list to `index + 1` entries (new slots null) and resizes the
ordinary-data buffer to `elementStride * newCount` bytes, every newly
added byte zero-filled by the resize; the element's bytes are then
copied at the payload offset and its specialization signature merged. -/
theorem setObject_container_growth (dynamicTypeId : ShaderComponentID)
    (layout : ShaderObjectLayoutModel) (dt : List Nat)
    (objects : List (Option ShaderObjectM))
    (ua : List (Option (List ShaderComponentID))) (sb : List ShaderComponentID)
    (sp : Option ShaderComponentID) (offset : ShaderOffset) (subObject : ShaderObjectM)
    (r : RhiResult) (seg : List ShaderComponentID)
    (hcont : layout.containerType ≠ ShaderObjectContainerType.None)
    (hkind : layout.elementTypeLayout.getKind ≠ TypeKind.Interface)
    (hgrow : objects.length ≤ offset.bindingArrayIndex)
    (hcollect : collectSpecializationArgs dynamicTypeId subObject = some (r, seg)) :
    setObject dynamicTypeId (.mk layout ObjState.Initial dt objects ua sb sp) offset
        subObject =
      some (RhiResult.ok, ShaderObjectM.mk layout ObjState.Initial
        (writeBytes (vecResize dt ((offset.bindingArrayIndex + 1) *
            layout.elementTypeLayout.getStride) 0) offset.uniformOffset subObject.data)
        ((vecResize objects (offset.bindingArrayIndex + 1) none).set
          offset.bindingArrayIndex (some subObject))
        ua (setSpecializationArgsForContainerElement dynamicTypeId sb seg) sp) ∧
    ((vecResize objects (offset.bindingArrayIndex + 1) none).set
        offset.bindingArrayIndex (some subObject)).length =
      offset.bindingArrayIndex + 1 ∧
    (∀ j, dt.length ≤ j →
      j < (offset.bindingArrayIndex + 1) * layout.elementTypeLayout.getStride →
      (vecResize dt ((offset.bindingArrayIndex + 1) *
        layout.elementTypeLayout.getStride) 0).get? j = some 0) := by
  refine ⟨?_, ?_, ?_⟩
  · have hgate : setObject dynamicTypeId
        (.mk layout ObjState.Initial dt objects ua sb sp) offset subObject =
        setObjectBody dynamicTypeId (.mk layout ObjState.Initial dt objects ua sb sp)
          offset subObject := by
      simp [setObject, ShaderObjectM.state]
    rw [hgate]
    rw [setObjectBody]
    rw [if_pos hcont]
    have hgd : decide (offset.bindingArrayIndex ≥ objects.length) = true := by
      simp [hgrow]
    simp only [hgd, if_true, if_neg hkind, hcollect, vecResize_length]
  · rw [List.length_set, vecResize_length]
  · intro j hj1 hj2
    exact vecResize_get?_new dt _ j hj1 hj2

def elemLayoutW : TypeLayoutReflection := .mk .OtherKind true .OtherShape none 4 4

def layoutSBW : ShaderObjectLayoutModel :=
  { containerType := ShaderObjectContainerType.StructuredBuffer,
    elementTypeLayout := elemLayoutW, bindingRanges := [], subObjectRanges := [] }

def objSBW : ShaderObjectM := .mk layoutSBW ObjState.Initial [] [] [] [] none

def subElemW : ShaderObjectM := .mk emptyLayout ObjState.Initial [9, 9, 9, 9] [] [] [] none

def offsetIdx2 : ShaderOffset :=
  { uniformOffset := 8, bindingRangeIndex := 0, bindingArrayIndex := 2 }

/-- Witness for C8: writing element index 2 into an empty
structured-buffer container (element stride 4) grows the sub-object
list to 3 entries and the data buffer to 12 zero-filled bytes before
the element's 4 bytes are copied at offset 8. -/
theorem setObject_container_growth_witness :
    setObject 0 objSBW offsetIdx2 subElemW =
      some (RhiResult.ok, ShaderObjectM.mk layoutSBW ObjState.Initial
        (writeBytes (vecResize [] 12 0) 8 [9, 9, 9, 9])
        ((vecResize ([] : List (Option ShaderObjectM)) 3 none).set 2 (some subElemW))
        [] (setSpecializationArgsForContainerElement 0 [] []) none) ∧
    ((vecResize ([] : List (Option ShaderObjectM)) 3 none).set 2 (some subElemW)).length
      = 3 ∧
    (vecResize ([] : List Nat) 12 0).get? 5 = some 0 := by
  have hcollect : collectSpecializationArgs 0 subElemW = some (RhiResult.ok, []) := by
    rw [subElemW, collectSpecializationArgs]
    simp only [emptyLayout]
    rw [if_neg (by simp)]
    rw [collectRanges]
  have h := setObject_container_growth 0 layoutSBW [] [] [] [] none offsetIdx2 subElemW
    RhiResult.ok [] (by decide) (by decide) (by decide) hcollect
  exact ⟨h.1, h.2.1, h.2.2 5 (by decide) (by decide)⟩

/-! C10: index validation in `getObject` and non-container `setObject`. -/

/-- The initialization invariant of a shader object: the sub-object
list covers every binding range declared by the layout (`m_objects` is
allocated from the layout's total sub-object count when the object is
created, outside the modelled sources). -/
def objectsCoverRanges (layout : ShaderObjectLayoutModel)
    (objects : List (Option ShaderObjectM)) : Prop :=
  ∀ br ∈ layout.bindingRanges, br.subObjectIndex + br.count ≤ objects.length

def brPlainW : BindingRange :=
  { bindingType := BindingType.OtherBinding, count := 1, subObjectIndex := 0,
    isSpecializable := false, leafTypeLayout := plainStructLayout }

def layoutOneRangeW : ShaderObjectLayoutModel :=
  { containerType := ShaderObjectContainerType.None,
    elementTypeLayout := plainStructLayout, bindingRanges := [brPlainW],
    subObjectRanges := [] }

def objOneRangeW : ShaderObjectM := .mk layoutOneRangeW ObjState.Initial [] [none] [] [] none

def offsetBai5 : ShaderOffset :=
  { uniformOffset := 0, bindingRangeIndex := 0, bindingArrayIndex := 5 }

/-- C10: `getObject`, and `setObject` on a non-container object, reject
a negative `bindingRangeIndex` and one at or past the binding-range
count with `SLANG_E_INVALID_ARG`; neither checks `bindingArrayIndex`.
Under the initialization invariant and the caller-ensured precondition
`bindingArrayIndex < bindingRange.count`, the sub-object access at
`bindingRange.subObjectIndex + bindingArrayIndex` is in bounds:
`getObject` then returns the stored sub-object whenever the slot is
non-null (a covered null slot still dereferences null inside
`returnComPtr`), and `setObject` stores the sub-object and returns.
With `bindingArrayIndex` past the declared count the access runs off
the sub-object list (the concrete instance `objOneRangeW` with
`bindingArrayIndex = 5` reaches undefined behaviour in both
operations, and its covered-but-null slot at index 0 makes `getObject`
dereference null as well). -/
theorem object_offset_validation (dynamicTypeId : ShaderComponentID)
    (layout : ShaderObjectLayoutModel) (dt : List Nat)
    (objects : List (Option ShaderObjectM))
    (ua : List (Option (List ShaderComponentID))) (sb : List ShaderComponentID)
    (sp : Option ShaderComponentID) (offset : ShaderOffset) (subObject : ShaderObjectM)
    (hcont : layout.containerType = ShaderObjectContainerType.None) :
    (offset.bindingRangeIndex < 0 →
      getObject (.mk layout ObjState.Initial dt objects ua sb sp) offset =
        some (.eInvalidArg, none) ∧
      setObject dynamicTypeId (.mk layout ObjState.Initial dt objects ua sb sp) offset
        subObject = some (.eInvalidArg, .mk layout ObjState.Initial dt objects ua sb sp)) ∧
    (0 ≤ offset.bindingRangeIndex →
      layout.bindingRanges.get? offset.bindingRangeIndex.toNat = none →
      getObject (.mk layout ObjState.Initial dt objects ua sb sp) offset =
        some (.eInvalidArg, none) ∧
      setObject dynamicTypeId (.mk layout ObjState.Initial dt objects ua sb sp) offset
        subObject = some (.eInvalidArg, .mk layout ObjState.Initial dt objects ua sb sp)) ∧
    (∀ br, 0 ≤ offset.bindingRangeIndex →
      layout.bindingRanges.get? offset.bindingRangeIndex.toNat = some br →
      objectsCoverRanges layout objects → offset.bindingArrayIndex < br.count →
      (∃ entry, objects.get? (br.subObjectIndex + offset.bindingArrayIndex) = some entry) ∧
      (∀ sub2, objects.get? (br.subObjectIndex + offset.bindingArrayIndex) =
          some (some sub2) →
        getObject (.mk layout ObjState.Initial dt objects ua sb sp) offset =
          some (.ok, some sub2)) ∧
      (∃ res, setObject dynamicTypeId (.mk layout ObjState.Initial dt objects ua sb sp)
        offset subObject = some res)) ∧
    getObject objOneRangeW offsetBai5 = none ∧
    setObject dynamicTypeId objOneRangeW offsetBai5 subObject = none ∧
    getObject objOneRangeW offsetZero = none := by
  have hgate : setObject dynamicTypeId
      (.mk layout ObjState.Initial dt objects ua sb sp) offset subObject =
      setObjectBody dynamicTypeId (.mk layout ObjState.Initial dt objects ua sb sp)
        offset subObject := by
    simp [setObject, ShaderObjectM.state]
  refine ⟨?_, ?_, ?_, ?_, ?_, ?_⟩
  · intro hneg
    constructor
    · rw [getObject, if_pos hneg]
    · rw [hgate, setObjectBody, if_neg (by simp [hcont]), if_pos hneg]
  · intro hpos hnone
    constructor
    · rw [getObject, if_neg (by omega)]
      simp only [hnone]
    · rw [hgate, setObjectBody, if_neg (by simp [hcont]), if_neg (by omega)]
      simp only [hnone]
  · intro br hpos hbr hcover hbai
    have hidx : br.subObjectIndex + offset.bindingArrayIndex < objects.length := by
      have := hcover br (List.get?_mem hbr)
      omega
    obtain ⟨entry, hentry⟩ : ∃ entry,
        objects.get? (br.subObjectIndex + offset.bindingArrayIndex) = some entry := by
      rw [List.get?_eq_get hidx]
      exact ⟨_, rfl⟩
    refine ⟨⟨entry, hentry⟩, ?_, ?_⟩
    · intro sub2 hsub2
      rw [getObject, if_neg (by omega)]
      simp only [hbr, hsub2]
    · have hset : setElem? objects (br.subObjectIndex + offset.bindingArrayIndex)
          (some subObject) = some (objects.set
            (br.subObjectIndex + offset.bindingArrayIndex) (some subObject)) := by
        unfold setElem?
        rw [if_pos hidx]
      rw [hgate, setObjectBody, if_neg (by simp [hcont]), if_neg (by omega)]
      simp only [hbr, hset]
      split
      · split
        · exact ⟨_, rfl⟩
        · exact ⟨_, rfl⟩
      · exact ⟨_, rfl⟩
      · exact ⟨_, rfl⟩
      · exact ⟨_, rfl⟩
  · rfl
  · have hgate2 : setObject dynamicTypeId objOneRangeW offsetBai5 subObject =
        setObjectBody dynamicTypeId objOneRangeW offsetBai5 subObject := by
      simp [setObject, objOneRangeW, ShaderObjectM.state]
    rw [hgate2, objOneRangeW, setObjectBody]
    rfl
  · rfl

/-- A one-range object whose single sub-object slot is filled. -/
def objOneFilledW : ShaderObjectM :=
  .mk layoutOneRangeW ObjState.Initial [] [some objInitialW] [] [] none

/-- Witness for C10: a negative binding-range index is rejected; the
in-range access at array index 0 of a one-slot binding succeeds for
both `getObject` and `setObject`. -/
theorem object_offset_validation_witness :
    getObject objOneFilledW
      { uniformOffset := 0, bindingRangeIndex := -1, bindingArrayIndex := 0 } =
      some (.eInvalidArg, none) ∧
    getObject objOneFilledW offsetZero = some (.ok, some objInitialW) ∧
    (∃ res, setObject 0 objOneFilledW offsetZero objInitialW = some res) := by
  have h := object_offset_validation 0 layoutOneRangeW [] [some objInitialW] [] [] none
    offsetZero objInitialW rfl
  have hneg := object_offset_validation 0 layoutOneRangeW [] [some objInitialW] [] [] none
    { uniformOffset := 0, bindingRangeIndex := -1, bindingArrayIndex := 0 } objInitialW rfl
  obtain ⟨-, hok, hout⟩ := h.2.2.1 brPlainW (by decide) rfl
    (by intro br hbr; simp [layoutOneRangeW] at hbr; rw [hbr]; decide) (by decide)
  exact ⟨(hneg.1 (by decide)).1, hok objInitialW rfl, hout⟩

end SlangRhi
